import Mathlib

/-!
Shallow embedding of the quiz application core (quiz_logic.py, llm_service.py,
file_exporter.py) and verification of the specification claims about it.

Conventions of the embedding:
* Python strings are Lean `String`; Python lists are Lean `List`.
* Python machine-unbounded ints are `Nat` where the source only ever holds
  non-negative values by construction (indices, scores) and `Int` where a
  subtraction appears in the source.
* A Python function that can raise is embedded with `Except String` / `Option`;
  a function that cannot raise is total.
-/

namespace QuizLogic

/-- A question record as consumed by `quiz_logic.py` (`q['question']`,
`q['options']`, `q['correct_answer']`, `q['explanation']`). -/
structure QuestionRecord where
  question : String
  options : List String
  correct_answer : String
  explanation : String
deriving DecidableEq, Repr

/-- One element of `QuizManager.user_answers`, exactly the dict appended in
`submit_answer` (quiz_logic.py lines 35-42). -/
structure AnswerEntry where
  question : String
  options : List String
  chosen_answer : String
  correct_answer : String
  is_correct : Bool
  explanation : String
deriving DecidableEq, Repr

/-- The mutable state of `QuizManager` (quiz_logic.py lines 2-7). -/
structure QuizManager where
  questions : List QuestionRecord
  current_question_index : Nat
  user_answers : List AnswerEntry
  score : Nat
  quiz_started : Bool
deriving DecidableEq, Repr

/-- `QuizManager.__init__` (quiz_logic.py lines 2-7). -/
def QuizManager.init : QuizManager :=
  { questions := [], current_question_index := 0, user_answers := [],
    score := 0, quiz_started := false }

/-- `QuizManager.load_questions` (quiz_logic.py lines 9-14). -/
def QuizManager.load_questions (_m : QuizManager) (questions_data : List QuestionRecord) :
    QuizManager :=
  { questions := questions_data, current_question_index := 0, user_answers := [],
    score := 0, quiz_started := true }

/-- `QuizManager.get_current_question` (quiz_logic.py lines 16-19): returns the
record at the current index when `0 <= index < len(questions)`, else `None`.
The index is a `Nat`, so the lower bound holds by type. -/
def QuizManager.get_current_question (m : QuizManager) : Option QuestionRecord :=
  m.questions[m.current_question_index]?

/-- `QuizManager.submit_answer` (quiz_logic.py lines 21-45).  Returns the
updated state together with the Python return value `(is_correct, explanation)`,
where the sentinel `(None, None)` is `(none, none)`. -/
def QuizManager.submit_answer (m : QuizManager) (chosen_option : String) :
    QuizManager × Option Bool × Option String :=
  if m.questions = [] then (m, none, none)
  else
    match m.get_current_question with
    | none => (m, none, none)
    | some current_q =>
      let correct_answer := current_q.correct_answer
      let is_correct : Bool := chosen_option = correct_answer
      let score' := if is_correct then m.score + 1 else m.score
      let entry : AnswerEntry :=
        { question := current_q.question
          options := current_q.options
          chosen_answer := chosen_option
          correct_answer := correct_answer
          is_correct := is_correct
          explanation := current_q.explanation }
      ({ m with
          score := score'
          user_answers := m.user_answers ++ [entry]
          current_question_index := m.current_question_index + 1 },
        some is_correct, some current_q.explanation)

/-- `QuizManager.is_quiz_finished` (quiz_logic.py lines 47-48). -/
def QuizManager.is_quiz_finished (m : QuizManager) : Bool :=
  m.questions.length ≤ m.current_question_index

/-- `QuizManager.get_score_summary` (quiz_logic.py lines 50-54).  The
`incorrect` component is the Python subtraction `total - score`, an `Int`. -/
def QuizManager.get_score_summary (m : QuizManager) : Nat × Nat × Int :=
  (m.questions.length, m.score, (m.questions.length : Int) - (m.score : Int))

/-- `QuizManager.reset_quiz` (quiz_logic.py lines 56-61). -/
def QuizManager.reset_quiz (_m : QuizManager) : QuizManager :=
  QuizManager.init

/-- States reachable from the freshly constructed manager by any sequence of
`load_questions`, `submit_answer` and `reset_quiz` calls. -/
inductive Reachable : QuizManager → Prop
  | init : Reachable QuizManager.init
  | load (m : QuizManager) (qs : List QuestionRecord) :
      Reachable m → Reachable (m.load_questions qs)
  | submit (m : QuizManager) (chosen : String) :
      Reachable m → Reachable (m.submit_answer chosen).1
  | reset (m : QuizManager) : Reachable m → Reachable (m.reset_quiz)

/-- Number of entries of the answer log marked correct. -/
def countCorrect (answers : List AnswerEntry) : Nat :=
  (answers.filter (fun e => e.is_correct)).length

end QuizLogic

namespace LLMService

/-- A parsed JSON value, the result of Python's `json.loads`.  A number is
kept as its source token (the claims under verification never compare or
compute with numbers, so the int/float distinction of Python is not modelled);
an object is a key-value list in first-insertion order with duplicate keys
collapsed to the last value, as Python's dict builds it. -/
inductive JVal where
  | null : JVal
  | bool (b : Bool) : JVal
  | num (raw : String) : JVal
  | str (s : String) : JVal
  | arr (elems : List JVal) : JVal
  | obj (fields : List (String × JVal)) : JVal
deriving Repr

mutual

/-- Structural equality of parsed JSON values, embedding Python's `==` as used
by the `in` checks of the validation loop.  (Python compares dicts by mapping
rather than by entry order and identifies `1` with `1.0`; both differences are
invisible to the claims, whose compared values are strings.) -/
def jvalBeq : JVal → JVal → Bool
  | .null, .null => true
  | .bool a, .bool b => a == b
  | .num a, .num b => a == b
  | .str a, .str b => a == b
  | .arr xs, .arr ys => jvalListBeq xs ys
  | .obj xs, .obj ys => jvalKVBeq xs ys
  | _, _ => false

def jvalListBeq : List JVal → List JVal → Bool
  | [], [] => true
  | x :: xs, y :: ys => jvalBeq x y && jvalListBeq xs ys
  | _, _ => false

def jvalKVBeq : List (String × JVal) → List (String × JVal) → Bool
  | [], [] => true
  | (k1, v1) :: xs, (k2, v2) :: ys => k1 == k2 && jvalBeq v1 v2 && jvalKVBeq xs ys
  | _, _ => false

end

/-- Key lookup in a parsed object (Python `q[field]`); keys are unique by
construction of `insertKV`, so first occurrence is the mapping. -/
def lookupKV (kvs : List (String × JVal)) (k : String) : Option JVal :=
  match kvs with
  | [] => none
  | (k', v) :: rest => if k' = k then some v else lookupKV rest k

/-- Dict insertion as Python builds object literals: an existing key keeps its
position but takes the new value (last duplicate wins), a new key is appended. -/
def insertKV (kvs : List (String × JVal)) (k : String) (v : JVal) :
    List (String × JVal) :=
  match kvs with
  | [] => [(k, v)]
  | (k', v') :: rest =>
    if k' = k then (k', v) :: rest else (k', v') :: insertKV rest k v

/-- JSON whitespace as skipped by Python's `json` module (`[ \t\n\r]*`). -/
def isJsonWs (c : Char) : Bool :=
  c = ' ' ∨ c = '\t' ∨ c = '\n' ∨ c = '\r'

def skipJWs (s : List Char) : List Char :=
  s.dropWhile isJsonWs

def isDigitChar (c : Char) : Bool :=
  '0' ≤ c ∧ c ≤ '9'

def hexVal (c : Char) : Option Nat :=
  if '0' ≤ c ∧ c ≤ '9' then some (c.toNat - '0'.toNat)
  else if 'a' ≤ c ∧ c ≤ 'f' then some (c.toNat - 'a'.toNat + 10)
  else if 'A' ≤ c ∧ c ≤ 'F' then some (c.toNat - 'A'.toNat + 10)
  else none

/-- Scalar value of a `\uXXXX` escape from four hex digits. -/
def hex4 (a b c d : Char) : Option Nat :=
  match hexVal a, hexVal b, hexVal c, hexVal d with
  | some x, some y, some z, some w => some (((x * 16 + y) * 16 + z) * 16 + w)
  | _, _, _, _ => none

/-- Body of a JSON string after the opening quote, per Python `json`'s strict
scanner: a terminating quote ends it, `\` introduces one of the eight simple
escapes or `\uXXXX` (surrogate pairs combined; Python keeps a lone surrogate
as a surrogate code point, which Lean's `Char` cannot hold, so a lone
surrogate is embedded as U+FFFD — no claim depends on lone surrogates), an
unescaped control character below U+0020 is rejected. -/
def parseStringBody (acc : List Char) : Nat → List Char → Except String (String × List Char)
  | 0, _ => .error "Fuel exhausted"
  | _ + 1, [] => .error "Unterminated string"
  | _ + 1, '"' :: rest => .ok (String.mk acc.reverse, rest)
  | fuel + 1, '\\' :: 'u' :: a :: b :: c :: d :: rest =>
    (match hex4 a b c d with
     | some n =>
       if 0xD800 ≤ n ∧ n ≤ 0xDBFF then
         -- High surrogate: combined with an immediately following low
         -- surrogate escape; otherwise kept lone (embedded as U+FFFD) and
         -- the next escape, if any, is scanned on its own.
         (match rest with
          | '\\' :: 'u' :: e :: f :: g :: h :: rest2 =>
            (match hex4 e f g h with
             | some lo =>
               if 0xDC00 ≤ lo ∧ lo ≤ 0xDFFF then
                 parseStringBody
                   (Char.ofNat (0x10000 + (n - 0xD800) * 0x400 + (lo - 0xDC00)) :: acc)
                   fuel rest2
               else parseStringBody (Char.ofNat 0xFFFD :: acc) fuel rest
             | none => parseStringBody (Char.ofNat 0xFFFD :: acc) fuel rest)
          | _ => parseStringBody (Char.ofNat 0xFFFD :: acc) fuel rest)
       else if 0xDC00 ≤ n ∧ n ≤ 0xDFFF then
         parseStringBody (Char.ofNat 0xFFFD :: acc) fuel rest
       else parseStringBody (Char.ofNat n :: acc) fuel rest
     | none => .error "Invalid \\uXXXX escape")
  | fuel + 1, '\\' :: e :: rest =>
    if e = '"' then parseStringBody ('"' :: acc) fuel rest
    else if e = '\\' then parseStringBody ('\\' :: acc) fuel rest
    else if e = '/' then parseStringBody ('/' :: acc) fuel rest
    else if e = 'b' then parseStringBody ('\x08' :: acc) fuel rest
    else if e = 'f' then parseStringBody ('\x0c' :: acc) fuel rest
    else if e = 'n' then parseStringBody ('\n' :: acc) fuel rest
    else if e = 'r' then parseStringBody ('\r' :: acc) fuel rest
    else if e = 't' then parseStringBody ('\t' :: acc) fuel rest
    else .error "Invalid escape"
  | fuel + 1, c :: rest =>
    if c.toNat < 0x20 then .error "Invalid control character"
    else parseStringBody (c :: acc) fuel rest

/-- The integer part of Python json's NUMBER_RE, `(-?(?:0|[1-9]\d*))`:
returns the consumed token and the rest, or `none` when no number starts
here. -/
def numIntPart : List Char → Option (List Char × List Char)
  | '-' :: rest =>
    (match numIntPart rest with
     | some (tok, rem) => some ('-' :: tok, rem)
     | none => none)
  | '0' :: rest => some (['0'], rest)
  | c :: rest =>
    if isDigitChar c ∧ c ≠ '0' then
      some (c :: rest.takeWhile isDigitChar, rest.dropWhile isDigitChar)
    else none
  | [] => none

/-- The optional fraction part `(\.\d+)?`. -/
def numFracPart (s : List Char) : List Char × List Char :=
  match s with
  | '.' :: rest =>
    if rest.takeWhile isDigitChar = [] then ([], s)
    else ('.' :: rest.takeWhile isDigitChar, rest.dropWhile isDigitChar)
  | _ => ([], s)

/-- The optional exponent part `([eE][-+]?\d+)?`. -/
def numExpPart (s : List Char) : List Char × List Char :=
  match s with
  | e :: rest =>
    if e = 'e' ∨ e = 'E' then
      match rest with
      | sgn :: rest2 =>
        if sgn = '+' ∨ sgn = '-' then
          if rest2.takeWhile isDigitChar = [] then ([], s)
          else (e :: sgn :: rest2.takeWhile isDigitChar, rest2.dropWhile isDigitChar)
        else if rest.takeWhile isDigitChar = [] then ([], s)
        else (e :: rest.takeWhile isDigitChar, rest.dropWhile isDigitChar)
      | [] => ([], s)
    else ([], s)
  | [] => ([], s)

/-- A full JSON number token per Python json's NUMBER_RE. -/
def parseNumberToken (s : List Char) : Option (String × List Char) :=
  match numIntPart s with
  | none => none
  | some (intTok, rest1) =>
    let (fracTok, rest2) := numFracPart rest1
    let (expTok, rest3) := numExpPart rest2
    some (String.mk (intTok ++ fracTok ++ expTok), rest3)

mutual

/-- One JSON value starting at the current position (leading whitespace
skipped), per Python json's scanner: objects, arrays, strings, `true`,
`false`, `null`, the Python extensions `NaN` / `Infinity` / `-Infinity`, and
numbers.  Fuel bounds the recursion; every two recursive steps consume at
least one input character, so `2 * length + 4` fuel never runs out. -/
def parseValue : Nat → List Char → Except String (JVal × List Char)
  | 0, _ => .error "Fuel exhausted"
  | fuel + 1, s =>
    match skipJWs s with
    | '{' :: rest =>
      (match skipJWs rest with
       | '}' :: rest2 => .ok (.obj [], rest2)
       | '"' :: rest2 => parseObjBody fuel [] rest2
       | _ => .error "Expecting property name enclosed in double quotes")
    | '[' :: rest =>
      (match skipJWs rest with
       | ']' :: rest2 => .ok (.arr [], rest2)
       | rest2 => parseArrBody fuel [] rest2)
    | '"' :: rest =>
      (match parseStringBody [] (rest.length + 1) rest with
       | .ok (str, rest2) => .ok (.str str, rest2)
       | .error e => .error e)
    | 't' :: 'r' :: 'u' :: 'e' :: rest => .ok (.bool true, rest)
    | 'f' :: 'a' :: 'l' :: 's' :: 'e' :: rest => .ok (.bool false, rest)
    | 'n' :: 'u' :: 'l' :: 'l' :: rest => .ok (.null, rest)
    | 'N' :: 'a' :: 'N' :: rest => .ok (.num "NaN", rest)
    | 'I' :: 'n' :: 'f' :: 'i' :: 'n' :: 'i' :: 't' :: 'y' :: rest =>
      .ok (.num "Infinity", rest)
    | '-' :: 'I' :: 'n' :: 'f' :: 'i' :: 'n' :: 'i' :: 't' :: 'y' :: rest =>
      .ok (.num "-Infinity", rest)
    | rest =>
      (match parseNumberToken rest with
       | some (tok, rest2) => .ok (.num tok, rest2)
       | none => .error "Expecting value")

/-- Array elements after `[` once known non-empty: value, then `,` and the
next element or the closing `]`. -/
def parseArrBody (fuel : Nat) (acc : List JVal) (s : List Char) :
    Except String (JVal × List Char) :=
  match fuel with
  | 0 => .error "Fuel exhausted"
  | fuel + 1 =>
    match parseValue fuel s with
    | .error e => .error e
    | .ok (v, rest) =>
      match skipJWs rest with
      | ']' :: rest2 => .ok (.arr (acc ++ [v]), rest2)
      | ',' :: rest2 => parseArrBody fuel (acc ++ [v]) (skipJWs rest2)
      | _ => .error "Expecting comma delimiter"

/-- Object members after the opening quote of a key: key string, `:`, value,
then `,` and the next member or the closing brace; duplicate keys collapse
via `insertKV` as in Python's dict construction. -/
def parseObjBody (fuel : Nat) (acc : List (String × JVal)) (s : List Char) :
    Except String (JVal × List Char) :=
  match fuel with
  | 0 => .error "Fuel exhausted"
  | fuel + 1 =>
    match parseStringBody [] (s.length + 1) s with
    | .error e => .error e
    | .ok (key, rest) =>
      match skipJWs rest with
      | ':' :: rest2 =>
        (match parseValue fuel rest2 with
         | .error e => .error e
         | .ok (v, rest3) =>
           match skipJWs rest3 with
           | '}' :: rest4 => .ok (.obj (insertKV acc key v), rest4)
           | ',' :: rest4 =>
             (match skipJWs rest4 with
              | '"' :: rest5 => parseObjBody fuel (insertKV acc key v) rest5
              | _ => .error "Expecting property name enclosed in double quotes")
           | _ => .error "Expecting comma delimiter")
      | _ => .error "Expecting colon delimiter"

end

/-- Python's `json.loads`: one JSON document, with only whitespace allowed
after it. -/
def pyJsonLoads (s : String) : Except String JVal :=
  match parseValue (2 * s.length + 4) s.data with
  | .error e => .error e
  | .ok (v, rest) =>
    if skipJWs rest = [] then .ok v else .error "Extra data"

/-- Python's `\s` for text patterns: ASCII whitespace plus the Unicode
whitespace code points. -/
def isPySpace (c : Char) : Bool :=
  c = ' ' ∨ c = '\t' ∨ c = '\n' ∨ c = '\r' ∨ c = '\x0b' ∨ c = '\x0c' ∨
  (0x1c ≤ c.toNat ∧ c.toNat ≤ 0x1f) ∨ c.toNat = 0x85 ∨ c.toNat = 0xa0 ∨
  c.toNat = 0x1680 ∨ (0x2000 ≤ c.toNat ∧ c.toNat ≤ 0x200a) ∨
  c.toNat = 0x2028 ∨ c.toNat = 0x2029 ∨ c.toNat = 0x202f ∨
  c.toNat = 0x205f ∨ c.toNat = 0x3000

/-- Maximal munch for `\s*`.  In the pattern under embedding every `\s*` is
followed by a non-space literal (`{`, `,` or `]`), so the maximal munch loses
no match and the regex backtracking over `\s*` need not be modelled. -/
def skipPyWs (s : List Char) : List Char :=
  s.dropWhile isPySpace

/-- Greedy `.*` with `re.DOTALL`: the continuation `k` is tried at the
shortest remaining suffix first (longest consumption), backtracking toward
shorter consumption, exactly the order of Python's backtracking engine. -/
def dotStarGreedy (k : List Char → Option (List Char)) : List Char → Option (List Char)
  | [] => k []
  | c :: rest =>
    match dotStarGreedy k rest with
    | some r => some r
    | none => k (c :: rest)

/-- The tail `(?:,\s*{.*}\s*)*\]` of the extraction pattern, greedy: one more
group `,\s*{.*}\s*` is attempted (with the group's own `.*` backtracking)
before falling back to the closing `]`.  Each group consumes at least three
characters, so the fuel `length + 1` supplied by the callers never runs
out. -/
def groupsThenBracket : Nat → List Char → Option (List Char)
  | 0, _ => none
  | fuel + 1, s =>
    let viaGroup : Option (List Char) :=
      match s with
      | ',' :: r1 =>
        (match skipPyWs r1 with
         | '{' :: r2 =>
           dotStarGreedy
             (fun t =>
               match t with
               | '}' :: r3 => groupsThenBracket fuel (skipPyWs r3)
               | _ => none) r2
         | _ => none)
      | _ => none
    match viaGroup with
    | some r => some r
    | none =>
      match s with
      | ']' :: r => some r
      | _ => none

/-- Attempt the whole pattern `\[\s*{.*}\s*(?:,\s*{.*}\s*)*\]` at the start
of `s`; returns the remaining suffix after the match. -/
def matchArrayAt (s : List Char) : Option (List Char) :=
  match s with
  | '[' :: r =>
    (match skipPyWs r with
     | '{' :: r2 =>
       dotStarGreedy
         (fun t =>
           match t with
           | '}' :: r3 => groupsThenBracket (r3.length + 1) (skipPyWs r3)
           | _ => none) r2
     | _ => none)
  | _ => none

/-- `re.search` over the pattern: leftmost start position wins; the matched
substring is the consumed prefix of that suffix. -/
def findJsonArrayAux (s : List Char) : Option (List Char) :=
  match matchArrayAt s with
  | some rem => some (s.take (s.length - rem.length))
  | none =>
    match s with
    | [] => none
    | _ :: t => findJsonArrayAux t

/-- `re.search(r'\[\s*{.*}\s*(?:,\s*{.*}\s*)*\]', raw, re.DOTALL)` followed by
`.group(0)` (llm_service.py line 96). -/
def findJsonArray (raw : String) : Option String :=
  (findJsonArrayAux raw.data).map String.mk

/-- `re.sub(r',\s*\]', ']', json_string)` (llm_service.py line 102): scan left
to right, replace each non-overlapping `,\s*]` by `]`, continue after the
match.  Each step consumes at least one character, so fuel equal to the
length never runs out. -/
def fixTrailingCommasAux : Nat → List Char → List Char
  | 0, s => s
  | _ + 1, [] => []
  | fuel + 1, ',' :: rest =>
    (match skipPyWs rest with
     | ']' :: rest2 => ']' :: fixTrailingCommasAux fuel rest2
     | _ => ',' :: fixTrailingCommasAux fuel rest)
  | fuel + 1, c :: rest => c :: fixTrailingCommasAux fuel rest

def fixTrailingCommas (s : String) : String :=
  String.mk (fixTrailingCommasAux s.data.length s.data)

/-- Whether a parsed object has a key (Python `field in q` for a dict). -/
def hasKey (kvs : List (String × JVal)) (k : String) : Bool :=
  (lookupKV kvs k).isSome

/-- The per-record validation of llm_service.py lines 115-132: all four
required fields present, `options` a list of exactly 4 entries,
`correct_answer` a member of `options`.  A non-dict element makes the checks
raise `TypeError` inside the per-record `try`, which is caught and the record
skipped, so only dicts can validate. -/
def validateOne (q : JVal) : Bool :=
  match q with
  | .obj kvs =>
    if hasKey kvs "question" && hasKey kvs "options" &&
        hasKey kvs "correct_answer" && hasKey kvs "explanation" then
      match lookupKV kvs "options" with
      | some (.arr opts) =>
        if opts.length = 4 then
          match lookupKV kvs "correct_answer" with
          | some ca => opts.any (fun o => jvalBeq ca o)
          | none => false
        else false
      | _ => false
    else false
  | _ => false

/-- `LLMService.generate_quiz_questions` (llm_service.py lines 88-145) as a
function of the raw model response text: regex extraction of the first JSON
array (no match returns `[]`), trailing-comma repair, `json.loads` (a decode
error returns `[]`), truncation to `num_questions` when over-long, and
per-record validation.  The extracted text starts with `[`, so a successful
parse is always an array; the impossible non-array case is mapped to `[]`,
matching the catch-all `except` branch of the source. -/
def generate_quiz_questions (raw_response_text : String) (num_questions : Nat) :
    List JVal :=
  match findJsonArray raw_response_text with
  | none => []
  | some json_string0 =>
    let json_string := fixTrailingCommas json_string0
    match pyJsonLoads json_string with
    | .error _ => []
    | .ok (.arr questions_data) =>
      let questions_trimmed :=
        if questions_data.length > num_questions then
          questions_data.take num_questions
        else questions_data
      questions_trimmed.filter validateOne
    | .ok _ => []

/-- Pythonic `a or b` on optional strings (llm_service.py line 13): the first
operand wins unless it is missing or empty (falsy). -/
def pyOrStr (a b : Option String) : Option String :=
  match a with
  | some s => if s = "" then b else some s
  | none => b

/-- `LLMService.__init__` credential resolution (llm_service.py lines 12-16):
`st.secrets.get("GOOGLE_API_KEY") or os.getenv("GOOGLE_API_KEY")`, raising
`ValueError` when the result is falsy (absent or empty). -/
def llmServiceInit (secretsKey envKey : Option String) : Except String Unit :=
  match pyOrStr secretsKey envKey with
  | none => .error "GOOGLE_API_KEY not found in environment variables."
  | some s =>
    if s = "" then .error "GOOGLE_API_KEY not found in environment variables."
    else .ok ()

/-- Validity of a question record as the specification's data model states it
(spec §3): all four fields present, non-empty question text, options exactly
4 distinct non-empty strings, and the correct answer equal to exactly one
element of the options.  This is the spec-side predicate, to be compared with
the source-side validation `validateOne`. -/
def specValidRecord (q : JVal) : Bool :=
  match q with
  | .obj kvs =>
    (match lookupKV kvs "question", lookupKV kvs "options",
           lookupKV kvs "correct_answer", lookupKV kvs "explanation" with
     | some (.str qt), some (.arr opts), some ca, some _ =>
       qt ≠ "" ∧ opts.length = 4 ∧
       opts.all (fun o => match o with | .str s => s ≠ "" | _ => false) ∧
       jvalNodup opts ∧
       opts.countP (fun o => jvalBeq ca o) = 1
     | _, _, _, _ => false)
  | _ => false
where
  /-- Pairwise distinctness of a list of JSON values. -/
  jvalNodup : List JVal → Bool
    | [] => true
    | x :: xs => !(xs.any (fun y => jvalBeq x y)) && jvalNodup xs

end LLMService

namespace FileExporter

/-- One row of the table built by `export_to_csv` (file_exporter.py lines
5-13): the `options` sequence flattened into a single string, the other
fields copied. -/
structure CsvRow where
  question : String
  options : String
  chosen_answer : String
  correct_answer : String
  is_correct : Bool
  explanation : String
deriving DecidableEq, Repr

/-- `export_to_csv` (file_exporter.py lines 5-13) up to byte serialization:
the DataFrame contents as a row list.  `pd.DataFrame([])` has no columns, so
the column access `df['options']` raises `KeyError` on an empty input; that
is the `.error` case.  On a non-empty input every dict has the same six keys
and rows keep input order. -/
def export_to_csv (quiz_results : List QuizLogic.AnswerEntry) :
    Except String (List CsvRow) :=
  if quiz_results = [] then .error "KeyError: options"
  else
    .ok (quiz_results.map (fun e =>
      { question := e.question
        options := String.intercalate "; " e.options
        chosen_answer := e.chosen_answer
        correct_answer := e.correct_answer
        is_correct := e.is_correct
        explanation := e.explanation }))

end FileExporter

section ConcreteInputs

open QuizLogic LLMService FileExporter

/-- Two well-formed question records for concrete session runs. -/
def qEx1 : QuestionRecord :=
  { question := "Q1", options := ["A", "B", "C", "D"],
    correct_answer := "A", explanation := "E1" }

def qEx2 : QuestionRecord :=
  { question := "Q2", options := ["A", "B", "C", "D"],
    correct_answer := "B", explanation := "E2" }

/-- A concrete answer-log entry for exporter runs. -/
def ansEx1 : QuizLogic.AnswerEntry :=
  { question := "Q1", options := ["A", "B", "C", "D"], chosen_answer := "A",
    correct_answer := "A", is_correct := true, explanation := "E1" }

/-- The raw model text of claim C8: a JSON array with a trailing comma before
the closing bracket. -/
def c8RawInput : String :=
  "[\x7b\"question\":\"Q\",\"options\":[\"A\",\"B\",\"C\",\"D\"],\"correct_answer\":\"A\",\"explanation\":\"E\"\x7d,]"

/-- The record that the C8 text would hold after a successful repair and
parse. -/
def c8Record : JVal :=
  .obj [("question", .str "Q"),
        ("options", .arr [.str "A", .str "B", .str "C", .str "D"]),
        ("correct_answer", .str "A"),
        ("explanation", .str "E")]

/-- Raw model text whose single record passes the source validation while
violating the spec's record constraints: empty question text and duplicated
options (the correct answer equals two of them). -/
def c1RawInput : String :=
  "[\x7b\"question\":\"\",\"options\":[\"A\",\"A\",\"B\",\"C\"],\"correct_answer\":\"A\",\"explanation\":\"E\"\x7d]"

def c1BadRecord : JVal :=
  .obj [("question", .str ""),
        ("options", .arr [.str "A", .str "A", .str "B", .str "C"]),
        ("correct_answer", .str "A"),
        ("explanation", .str "E")]

/-- A fully well-formed single-record raw model text (spec §8's example). -/
def okRawInput : String :=
  "[\x7b\"question\":\"Q\",\"options\":[\"A\",\"B\",\"C\",\"D\"],\"correct_answer\":\"B\",\"explanation\":\"E\"\x7d]"

def okRecord : JVal :=
  .obj [("question", .str "Q"),
        ("options", .arr [.str "A", .str "B", .str "C", .str "D"]),
        ("correct_answer", .str "B"),
        ("explanation", .str "E")]

end ConcreteInputs

open QuizLogic LLMService FileExporter

theorem countCorrect_append_single (xs : List AnswerEntry) (e : AnswerEntry) :
    countCorrect (xs ++ [e]) = countCorrect xs + (if e.is_correct then 1 else 0) := by
  by_cases h : e.is_correct <;>
    simp [countCorrect, List.filter_append, List.filter_singleton, h]

/-- Invariant of every reachable `QuizManager` state: the running score equals
the number of correct entries of the answer log, the log length equals the
current index, and the index never exceeds the number of questions. -/
theorem reachable_state_invariant (m : QuizManager) (h : Reachable m) :
    m.score = countCorrect m.user_answers ∧
    m.user_answers.length = m.current_question_index ∧
    m.current_question_index ≤ m.questions.length := by
  induction h with
  | init => exact ⟨rfl, rfl, Nat.le_refl 0⟩
  | load m qs hm ih => exact ⟨rfl, rfl, Nat.zero_le _⟩
  | reset m hm ih => exact ⟨rfl, rfl, Nat.le_refl 0⟩
  | submit m chosen hm ih =>
    by_cases hq : m.questions = []
    · simpa [QuizManager.submit_answer, hq] using ih
    · cases hcq : m.get_current_question with
      | none => simpa [QuizManager.submit_answer, hq, hcq] using ih
      | some q =>
        have hidx : m.current_question_index < m.questions.length := by
          rcases Nat.lt_or_ge m.current_question_index m.questions.length with hlt | hge
          · exact hlt
          · exfalso
            have hnone : m.get_current_question = none := by
              unfold QuizManager.get_current_question
              exact List.getElem?_eq_none hge
            rw [hnone] at hcq
            exact Option.noConfusion hcq
        obtain ⟨h1, h2, h3⟩ := ih
        simp only [QuizManager.submit_answer, if_neg hq, hcq]
        refine ⟨?_, ?_, ?_⟩
        · rw [countCorrect_append_single, ← h1]
          by_cases hc : decide (chosen = q.correct_answer) = true <;> simp [hc]
        · simp [h2]
        · simpa using hidx

/-- Claim C2: for every reachable state, `get_score_summary` returns the
triple of the number of loaded questions, the count of answer-log entries
marked correct (the running score counter always equals that count), and
total minus correct — even when some questions were never answered. -/
theorem get_score_summary_spec (m : QuizManager) (h : Reachable m) :
    m.get_score_summary =
      (m.questions.length, countCorrect m.user_answers,
        (m.questions.length : Int) - (countCorrect m.user_answers : Int)) := by
  obtain ⟨h1, -, -⟩ := reachable_state_invariant m h
  simp [QuizManager.get_score_summary, h1]

/-- Witness for C2: a session with two questions where only the first was
answered (correctly); the summary counts the unanswered question as
incorrect. -/
theorem get_score_summary_spec_witness :
    ((QuizManager.init.load_questions [qEx1, qEx2]).submit_answer "A").1.get_score_summary
      = (2, 1, 1) := by
  rw [get_score_summary_spec _
    (Reachable.submit _ "A" (Reachable.load _ _ Reachable.init))]
  decide

/-- Claim C3: with questions loaded and the index in range, `submit_answer`
compares the choice to the current record's correct answer by exact string
equality, appends exactly one answer entry copying the record's fields with
the chosen answer and the comparison result, advances the index by one, and
returns the comparison result and the record's explanation. -/
theorem submit_answer_in_progress (m : QuizManager) (chosen : String)
    (h : m.current_question_index < m.questions.length) :
    m.submit_answer chosen =
      ({ m with
          score :=
            if decide (chosen = (m.questions.get ⟨m.current_question_index, h⟩).correct_answer)
            then m.score + 1 else m.score,
          user_answers := m.user_answers ++
            [{ question := (m.questions.get ⟨m.current_question_index, h⟩).question
               options := (m.questions.get ⟨m.current_question_index, h⟩).options
               chosen_answer := chosen
               correct_answer := (m.questions.get ⟨m.current_question_index, h⟩).correct_answer
               is_correct :=
                 decide (chosen = (m.questions.get ⟨m.current_question_index, h⟩).correct_answer)
               explanation := (m.questions.get ⟨m.current_question_index, h⟩).explanation }],
          current_question_index := m.current_question_index + 1 },
        some (decide (chosen = (m.questions.get ⟨m.current_question_index, h⟩).correct_answer)),
        some (m.questions.get ⟨m.current_question_index, h⟩).explanation) := by
  have hne : m.questions ≠ [] :=
    List.ne_nil_of_length_pos (Nat.lt_of_le_of_lt (Nat.zero_le _) h)
  have hcq : m.get_current_question = some (m.questions.get ⟨m.current_question_index, h⟩) := by
    unfold QuizManager.get_current_question
    exact List.getElem?_eq_getElem h
  simp only [QuizManager.submit_answer, if_neg hne, hcq]

/-- Witness for C3: submitting the correct option against the first of two
loaded questions. -/
theorem submit_answer_in_progress_witness :
    (QuizManager.init.load_questions [qEx1, qEx2]).submit_answer "A" =
      ({ questions := [qEx1, qEx2], current_question_index := 1,
         user_answers := [ansEx1], score := 1, quiz_started := true },
       some true, some "E1") := by
  rw [submit_answer_in_progress _ _ (by decide)]
  decide

/-- Claim C4: with no questions loaded or the index at or past the end,
`submit_answer` returns the sentinel `(none, none)`, appends nothing, and
leaves the whole state unchanged. -/
theorem submit_answer_noop (m : QuizManager) (chosen : String)
    (h : m.questions = [] ∨ m.questions.length ≤ m.current_question_index) :
    m.submit_answer chosen = (m, none, none) := by
  unfold QuizManager.submit_answer
  rcases h with h | h
  · rw [if_pos h]
  · by_cases hq : m.questions = []
    · rw [if_pos hq]
    · rw [if_neg hq]
      have hnone : m.get_current_question = none := by
        unfold QuizManager.get_current_question
        exact List.getElem?_eq_none h
      rw [hnone]

/-- Witness for C4: submitting on a fresh manager with no questions. -/
theorem submit_answer_noop_witness :
    QuizManager.init.submit_answer "A" = (QuizManager.init, none, none) :=
  submit_answer_noop QuizManager.init "A" (Or.inl rfl)

/-- Claim C7: `load_questions` always resets the index to 0, clears the
answer log and the score, and marks the session started; on non-empty input
the quiz is not finished and the current question is the first record, while
loading the empty sequence is legal and immediately finished with zero
questions. -/
theorem load_questions_spec (m : QuizManager) (qs : List QuestionRecord)
    (hne : qs ≠ []) :
    (m.load_questions qs).questions = qs ∧
    (m.load_questions qs).current_question_index = 0 ∧
    (m.load_questions qs).user_answers = [] ∧
    (m.load_questions qs).score = 0 ∧
    (m.load_questions qs).quiz_started = true ∧
    (m.load_questions qs).is_quiz_finished = false ∧
    (m.load_questions qs).get_current_question = some (qs.head hne) ∧
    (m.load_questions []).is_quiz_finished = true ∧
    (m.load_questions []).questions.length = 0 := by
  refine ⟨rfl, rfl, rfl, rfl, rfl, ?_, ?_, rfl, rfl⟩
  · simp [QuizManager.is_quiz_finished, QuizManager.load_questions,
      Nat.le_zero, List.length_eq_zero, hne]
  · cases qs with
    | nil => exact absurd rfl hne
    | cons a t =>
      simp [QuizManager.load_questions, QuizManager.get_current_question]

/-- Witness for C7: loading two concrete questions. -/
theorem load_questions_spec_witness :
    (QuizManager.init.load_questions [qEx1, qEx2]).is_quiz_finished = false ∧
    (QuizManager.init.load_questions [qEx1, qEx2]).get_current_question = some qEx1 ∧
    (QuizManager.init.load_questions []).is_quiz_finished = true := by
  have h := load_questions_spec QuizManager.init [qEx1, qEx2] (by decide)
  exact ⟨h.2.2.2.2.2.1, h.2.2.2.2.2.2.1, h.2.2.2.2.2.2.2.1⟩

/-- Claim C10: in every state reachable by any sequence of
`load_questions`, `submit_answer` and `reset_quiz` calls, the answer-log
length equals the current index and the index never exceeds the number of
loaded questions. -/
theorem progress_invariant (m : QuizManager) (h : Reachable m) :
    m.user_answers.length = m.current_question_index ∧
    m.current_question_index ≤ m.questions.length :=
  (reachable_state_invariant m h).2

/-- Witness for C10: a session that loaded two questions and answered both,
after an earlier reset. -/
theorem progress_invariant_witness :
    (((QuizManager.init.reset_quiz.load_questions [qEx1, qEx2]).submit_answer "C").1.submit_answer "B").1.user_answers.length = 2 ∧
    (((QuizManager.init.reset_quiz.load_questions [qEx1, qEx2]).submit_answer "C").1.submit_answer "B").1.current_question_index = 2 := by
  have h := progress_invariant
    (((QuizManager.init.reset_quiz.load_questions [qEx1, qEx2]).submit_answer "C").1.submit_answer "B").1
    (Reachable.submit _ "B" (Reachable.submit _ "C"
      (Reachable.load _ _ (Reachable.reset _ Reachable.init))))
  refine ⟨?_, ?_⟩
  · rw [h.1]; decide
  · decide

/-- Claim C5: for every raw model output and requested count of at least 1,
the returned sequence has length at most the count; when extraction and
parsing succeed, the result is the validation filter of the parsed records
truncated to the first `n` (never padded when fewer parse). -/
theorem generate_length_le (raw : String) (n : Nat) (hn : 1 ≤ n) :
    (generate_quiz_questions raw n).length ≤ n ∧
    (∀ s qs, findJsonArray raw = some s →
      pyJsonLoads (fixTrailingCommas s) = Except.ok (JVal.arr qs) →
      generate_quiz_questions raw n = (qs.take n).filter validateOne) := by
  constructor
  · unfold generate_quiz_questions
    cases hf : findJsonArray raw with
    | none => simp
    | some s =>
      cases hp : pyJsonLoads (fixTrailingCommas s) with
      | error e => simp [hp]
      | ok v =>
        cases v with
        | arr qs =>
          simp only [hp]
          by_cases hlen : qs.length > n
          · simp only [if_pos hlen]
            exact le_trans (List.length_filter_le _ _)
              (by rw [List.length_take]; exact Nat.min_le_left _ _)
          · simp only [if_neg hlen]
            exact le_trans (List.length_filter_le _ _) (Nat.le_of_not_lt hlen)
        | null => simp [hp]
        | bool b => simp [hp]
        | num r => simp [hp]
        | str s2 => simp [hp]
        | obj kvs => simp [hp]
  · intro s qs hf hp
    unfold generate_quiz_questions
    simp only [hf, hp]
    by_cases hlen : qs.length > n
    · simp only [if_pos hlen]
    · simp only [if_neg hlen]
      rw [List.take_of_length_le (Nat.le_of_not_lt hlen)]

/-- Witness for C5: a single-record raw text requested at count 2 — one
record comes back, not padded, and the truncation equation evaluates. -/
theorem generate_length_le_witness :
    (generate_quiz_questions okRawInput 2).length ≤ 2 ∧
    generate_quiz_questions okRawInput 2 = [okRecord] := by
  have h := generate_length_le okRawInput 2 (by decide)
  refine ⟨h.1, ?_⟩
  rw [h.2 okRawInput [okRecord] rfl rfl]
  rfl

/-- Claim C6: `generate_quiz_questions` never raises for model-output or
parsing problems — a failed array extraction or a JSON decode error each
return the empty sequence — while service construction raises exactly when
the resolved credential is missing or empty. -/
theorem generate_failure_paths (raw : String) (n : Nat) :
    (findJsonArray raw = none → generate_quiz_questions raw n = []) ∧
    (∀ s e, findJsonArray raw = some s →
      pyJsonLoads (fixTrailingCommas s) = Except.error e →
      generate_quiz_questions raw n = []) ∧
    (∀ sk ek, (∃ msg, llmServiceInit sk ek = Except.error msg) ↔
      (pyOrStr sk ek = none ∨ pyOrStr sk ek = some "")) := by
  refine ⟨?_, ?_, ?_⟩
  · intro hf
    unfold generate_quiz_questions
    rw [hf]
  · intro s e hf hp
    unfold generate_quiz_questions
    rw [hf]
    simp only [hp]
  · intro sk ek
    unfold llmServiceInit
    cases hpo : pyOrStr sk ek with
    | none => simp
    | some s => by_cases hs : s = "" <;> simp [hs]

/-- Witness for C6: text with no JSON array yields the empty sequence, and a
wholly absent credential makes construction fail. -/
theorem generate_failure_paths_witness :
    generate_quiz_questions "The model replied with prose only." 3 = [] ∧
    (∃ msg, llmServiceInit none none = Except.error msg) := by
  refine ⟨(generate_failure_paths "The model replied with prose only." 3).1 rfl, ?_⟩
  exact ((generate_failure_paths "x" 1).2.2 none none).mpr (Or.inl rfl)


/-- Claim C1 counterexample: the source validation admits a record with empty
question text, duplicated options, and a correct answer equal to two of the
four options — so not every returned record satisfies the spec's record
constraints (all four fields, non-empty question, 4 distinct non-empty
options, correct answer equal to exactly one option). -/
theorem validation_admits_spec_invalid_record :
    generate_quiz_questions c1RawInput 1 = [c1BadRecord] ∧
    specValidRecord c1BadRecord = false :=
  ⟨rfl, rfl⟩

/-- Claim C1 amended: every record returned by `generate_quiz_questions` has
all four required fields, its options are a list of exactly 4 entries, and
its correct answer is a member of the options (the checks of llm_service.py
lines 115-132; the source does not require the question text non-empty, the
options distinct or non-empty, nor the correct answer to match only one
option). -/
theorem generate_record_validity (raw : String) (n : Nat) (q : JVal)
    (hq : q ∈ generate_quiz_questions raw n) :
    ∃ kvs opts ca,
      q = JVal.obj kvs ∧
      hasKey kvs "question" = true ∧
      hasKey kvs "options" = true ∧
      hasKey kvs "correct_answer" = true ∧
      hasKey kvs "explanation" = true ∧
      lookupKV kvs "options" = some (JVal.arr opts) ∧
      opts.length = 4 ∧
      lookupKV kvs "correct_answer" = some ca ∧
      opts.any (fun o => jvalBeq ca o) = true := by
  have hv : validateOne q = true := by
    unfold generate_quiz_questions at hq
    cases hf : findJsonArray raw with
    | none => rw [hf] at hq; simp at hq
    | some s =>
      rw [hf] at hq
      cases hp : pyJsonLoads (fixTrailingCommas s) with
      | error e => simp only [hp] at hq; simp at hq
      | ok v =>
        cases v with
        | arr qs =>
          simp only [hp] at hq
          exact List.of_mem_filter hq
        | null => simp only [hp] at hq; simp at hq
        | bool b => simp only [hp] at hq; simp at hq
        | num r => simp only [hp] at hq; simp at hq
        | str s2 => simp only [hp] at hq; simp at hq
        | obj kvs => simp only [hp] at hq; simp at hq
  cases q with
  | null => exact absurd hv (by simp [validateOne])
  | bool b => exact absurd hv (by simp [validateOne])
  | num r => exact absurd hv (by simp [validateOne])
  | str s => exact absurd hv (by simp [validateOne])
  | arr xs => exact absurd hv (by simp [validateOne])
  | obj kvs =>
    have hv2 : (if hasKey kvs "question" && hasKey kvs "options" &&
          hasKey kvs "correct_answer" && hasKey kvs "explanation" then
            (match lookupKV kvs "options" with
             | some (JVal.arr opts) =>
               if opts.length = 4 then
                 (match lookupKV kvs "correct_answer" with
                  | some ca => opts.any (fun o => jvalBeq ca o)
                  | none => false)
               else false
             | _ => false)
          else false) = true := hv
    by_cases hcond : (hasKey kvs "question" && hasKey kvs "options" &&
        hasKey kvs "correct_answer" && hasKey kvs "explanation") = true
    · rw [if_pos hcond] at hv2
      simp only [Bool.and_eq_true] at hcond
      obtain ⟨⟨⟨hk1, hk2⟩, hk3⟩, hk4⟩ := hcond
      cases hoopt : lookupKV kvs "options" with
      | none => rw [hoopt] at hv2; exact Bool.noConfusion hv2
      | some ov =>
        cases ov with
        | arr opts =>
          rw [hoopt] at hv2
          have hv3 : (if opts.length = 4 then
              (match lookupKV kvs "correct_answer" with
               | some ca => opts.any (fun o => jvalBeq ca o)
               | none => false)
            else false) = true := hv2
          by_cases hlen4 : opts.length = 4
          · rw [if_pos hlen4] at hv3
            cases hca : lookupKV kvs "correct_answer" with
            | none => rw [hca] at hv3; exact Bool.noConfusion hv3
            | some ca =>
              rw [hca] at hv3
              exact ⟨kvs, opts, ca, rfl, hk1, hk2, hk3, hk4, hoopt, hlen4, hca, hv3⟩
          · rw [if_neg hlen4] at hv3; exact Bool.noConfusion hv3
        | null => rw [hoopt] at hv2; exact Bool.noConfusion hv2
        | bool b => rw [hoopt] at hv2; exact Bool.noConfusion hv2
        | num r => rw [hoopt] at hv2; exact Bool.noConfusion hv2
        | str s => rw [hoopt] at hv2; exact Bool.noConfusion hv2
        | obj kvs2 => rw [hoopt] at hv2; exact Bool.noConfusion hv2
    · rw [if_neg hcond] at hv2; exact Bool.noConfusion hv2

/-- Witness for the amended C1: the concrete admitted record exhibits all the
source-side validation facts. -/
theorem generate_record_validity_witness :
    ∃ kvs opts ca,
      c1BadRecord = JVal.obj kvs ∧
      hasKey kvs "question" = true ∧
      hasKey kvs "options" = true ∧
      hasKey kvs "correct_answer" = true ∧
      hasKey kvs "explanation" = true ∧
      lookupKV kvs "options" = some (JVal.arr opts) ∧
      opts.length = 4 ∧
      lookupKV kvs "correct_answer" = some ca ∧
      opts.any (fun o => jvalBeq ca o) = true := by
  have hmem : c1BadRecord ∈ generate_quiz_questions c1RawInput 1 := by
    have he : generate_quiz_questions c1RawInput 1 = [c1BadRecord] := rfl
    rw [he]
    exact List.mem_singleton.mpr rfl
  exact generate_record_validity c1RawInput 1 c1BadRecord hmem

/-- Claim C8 (code bug): on the claim's exact raw text — a JSON array with a
trailing comma before the closing bracket — the extraction regex of
llm_service.py line 96 finds no match at all (it requires a closing brace,
then only whitespace, before the closing bracket), so the function returns
the empty sequence and the trailing-comma repair of line 102 never runs on
it; yet the repair step by itself would have produced exactly the
single-record array the claim describes. -/
theorem trailing_comma_extraction_fails :
    findJsonArray c8RawInput = none ∧
    generate_quiz_questions c8RawInput 1 = [] ∧
    pyJsonLoads (fixTrailingCommas c8RawInput) = Except.ok (JVal.arr [c8Record]) :=
  ⟨rfl, rfl, rfl⟩

/-- Claim C9 counterexample: on the empty answer log the source raises
(`pd.DataFrame([])` has no columns, so `df['options']` is a `KeyError`)
instead of producing a zero-row table. -/
theorem export_to_csv_empty_raises :
    FileExporter.export_to_csv [] = Except.error "KeyError: options" :=
  rfl

/-- Claim C9 amended: for every non-empty answer log, `export_to_csv`
produces one row per entry in log order, the options field joined with
the `"; "` delimiter and every other field copied unchanged. -/
theorem export_to_csv_rows (rs : List AnswerEntry) (h : rs ≠ []) :
    FileExporter.export_to_csv rs =
      Except.ok (rs.map (fun e =>
        { question := e.question
          options := String.intercalate "; " e.options
          chosen_answer := e.chosen_answer
          correct_answer := e.correct_answer
          is_correct := e.is_correct
          explanation := e.explanation })) ∧
    ∀ rows, FileExporter.export_to_csv rs = Except.ok rows →
      rows.length = rs.length := by
  constructor
  · unfold FileExporter.export_to_csv
    rw [if_neg h]
  · intro rows hr
    unfold FileExporter.export_to_csv at hr
    rw [if_neg h] at hr
    cases hr
    simp

/-- Witness for the amended C9: a one-entry log exports to exactly one row
with the options flattened. -/
theorem export_to_csv_rows_witness :
    FileExporter.export_to_csv [ansEx1] =
      Except.ok [{ question := "Q1", options := "A; B; C; D", chosen_answer := "A",
                   correct_answer := "A", is_correct := true, explanation := "E1" }] := by
  rw [(export_to_csv_rows [ansEx1] (by decide)).1]
  rfl
